import Mathlib

/-!
Verification of the functional core of `Finalapp.py`, a Streamlit RAG chatbot
backed by a SQLite store.  The relational store (tables `users` and
`chat_history`, both with autoincrementing integer primary keys) is embedded
as lists of rows kept in insertion order together with the next fresh id; the
bcrypt password hash is embedded as a salted pair, faithful to the contract of
the hashing library (verification succeeds exactly when the hash was produced
from the given plaintext); the external Gemini call is a parameter returning
either a text reply or an error message, matching a Python call that either
returns or raises.
-/

/-- A bcrypt-class salted hash, as produced by `hash_password` in the source
(`pwd_context.hash`).  The salt is drawn fresh at hashing time; the library
contract is that `verify` succeeds exactly when the hash was computed from the
given plaintext, for whatever salt was used. -/
structure BcryptHash where
  salt : Nat
  plaintext : String
deriving Repr, DecidableEq

/-- `hash_password` (Finalapp.py line 72): hashes a password with a salt. -/
def hash_password (password : String) (salt : Nat) : BcryptHash :=
  ⟨salt, password⟩

/-- `verify_password` (Finalapp.py line 76): checks a plaintext against a
stored hash; ignores the salt embedded in the hash, succeeding exactly when
the hash was derived from the same plaintext. -/
def verify_password (plain_password : String) (hashed_password : BcryptHash) : Bool :=
  hashed_password.plaintext == plain_password

/-- A row of the `users` table (`id PK AUTOINCREMENT, username UNIQUE,
password_hash`). -/
structure UserRow where
  id : Nat
  username : String
  password_hash : BcryptHash
deriving Repr, DecidableEq

/-- A row of the `chat_history` table (`id PK AUTOINCREMENT, user_id FK,
role, content`). -/
structure ChatRow where
  id : Nat
  user_id : Nat
  role : String
  content : String
deriving Repr, DecidableEq

/-- The persistent SQLite database `users.db`: both tables in insertion
order, together with the next autoincrement id of each. -/
structure DB where
  users : List UserRow
  next_user_id : Nat
  chat : List ChatRow
  next_chat_id : Nat
deriving Repr, DecidableEq

/-- `init_db` (Finalapp.py line 49) on a fresh file: both tables empty,
autoincrement counters starting at 1. -/
def initDB : DB :=
  ⟨[], 1, [], 1⟩

/-- `register_user` (Finalapp.py lines 80 to 92): hashes the password and
attempts the INSERT.  The UNIQUE constraint on `username` raises
`sqlite3.IntegrityError` exactly when a row with that username already
exists, in which case the function returns `False` and the store is left as
it was; otherwise the new row is inserted and it returns `True`.  The salt
parameter stands for the randomness the hashing library draws. -/
def register_user (db : DB) (username password : String) (salt : Nat) : DB × Bool :=
  let hashed_password := hash_password password salt
  if db.users.any (fun u => u.username == username) then
    (db, false)
  else
    ({ db with
        users := db.users ++ [⟨db.next_user_id, username, hashed_password⟩],
        next_user_id := db.next_user_id + 1 }, true)

/-- `login_user` (Finalapp.py lines 94 to 103): SELECTs the row by username
(`fetchone`, so the first match in the table), verifies the password against
the stored hash, and returns the user id on match, `none` otherwise.  The
same `none` is returned both when no row exists and when the password does
not match. -/
def login_user (db : DB) (username password : String) : Option Nat :=
  match db.users.find? (fun u => u.username == username) with
  | some u => if verify_password password u.password_hash then some u.id else none
  | none => none

/-- A `{role, content}` record as returned by `get_chat_history` and kept in
`st.session_state.messages`. -/
structure Message where
  role : String
  content : String
deriving Repr, DecidableEq

/-- `get_chat_history` (Finalapp.py lines 105 to 112): SELECTs
`(role, content)` of the rows whose `user_id` matches, in table order, and
builds the list of records.  The function only reads the store. -/
def get_chat_history (db : DB) (user_id : Nat) : List Message :=
  (db.chat.filter (fun row => row.user_id == user_id)).map
    (fun row => ⟨row.role, row.content⟩)

/-- `save_message` (Finalapp.py lines 114 to 120): INSERTs one complete row
into `chat_history` and commits. -/
def save_message (db : DB) (user_id : Nat) (role content : String) : DB :=
  { db with
      chat := db.chat ++ [⟨db.next_chat_id, user_id, role, content⟩],
      next_chat_id := db.next_chat_id + 1 }

/-- `extract_text_from_pdf` (Finalapp.py lines 124 to 132) on a well-formed
PDF already parsed into its pages: each page yields either its text layer or
nothing (`page.extract_text()` returning `None`), and the fold accumulates
`text += page.extract_text() or ""` over the pages in order. -/
def extract_text_from_pdf (pages : List (Option String)) : String :=
  pages.foldl (fun text page => text ++ page.getD "") ""

/-- The per-client `st.session_state` fields the source uses: the
authentication flag, current user id and username, the extracted document
text, and the session transcript mirror. -/
structure SessionState where
  logged_in : Bool
  user_id : Option Nat
  username : Option String
  document_content : Option String
  messages : List Message
deriving Repr, DecidableEq

/-- The Logout button handler (Finalapp.py lines 186 to 191): sets
`logged_in`, `user_id`, `username`, `document_content`.  No other field is
touched. -/
def logout (s : SessionState) : SessionState :=
  { s with
      logged_in := false
      user_id := none
      username := none
      document_content := none }

/-- The successful-login branch of `login_page` (Finalapp.py lines 249 to
252): records the id and username of the freshly authenticated user. -/
def do_login (s : SessionState) (uid : Nat) (un : String) : SessionState :=
  { s with logged_in := true, user_id := some uid, username := some un }

/-- The transcript rehydration guard of `main_app` (Finalapp.py lines 194 to
195): the transcript is loaded from the store only when the session holds no
messages. -/
def rehydrate_messages (db : DB) (s : SessionState) (uid : Nat) : SessionState :=
  if s.messages == [] then { s with messages := get_chat_history db uid } else s

/-- The prompt composed in `main_app` (Finalapp.py lines 216 to 217):
the instruction, the whole document text, and the user question. -/
def build_full_prompt (context question : String) : String :=
  "Based on the following document content, answer the user\x27s question. Document: "
    ++ context ++ "\n\nUser Question: " ++ question

/-- The reply shown when no document is loaded (Finalapp.py line 227). -/
def no_document_sentinel : String :=
  "Please upload a document first to enable the RAG feature."

/-- The answer-generation step of `main_app` (Finalapp.py lines 212 to 227).
`service` stands for `model.generate_content`: `Except.ok` is a returned
reply text, `Except.error e` is a raised exception rendered as `str(e)`.
Python truthiness of `st.session_state.document_content` makes both `None`
and the empty string take the no-document branch.  Returns the reply
together with whether the external service was called. -/
def answer (service : String → Except String String) (doc : Option String)
    (question : String) : String × Bool :=
  match doc with
  | some context =>
      if context == "" then
        (no_document_sentinel, false)
      else
        match service (build_full_prompt context question) with
        | Except.ok t => (t, true)
        | Except.error e => ("An error occurred: " ++ e, true)
  | none => (no_document_sentinel, false)

/-- The chat-input handler of `main_app` (Finalapp.py lines 203 to 234), run
with `uid` the session user id: appends the user message to the session
transcript and the store, computes the reply (model answer, caught error
text, or no-document sentinel), then appends the assistant message to the
session transcript and the store. -/
def handle_prompt (service : String → Except String String) (db : DB)
    (s : SessionState) (uid : Nat) (prompt : String) : DB × SessionState :=
  let s1 := { s with messages := s.messages ++ [Message.mk "user" prompt] }
  let db1 := save_message db uid "user" prompt
  let ai_response := (answer service s.document_content prompt).1
  let s2 := { s1 with messages := s1.messages ++ [Message.mk "assistant" ai_response] }
  let db2 := save_message db1 uid "assistant" ai_response
  (db2, s2)

/-- One store-visible action of the application: a registration attempt or a
handled chat prompt.  `login_user` and `get_chat_history` only read the
store, and no other code path writes it. -/
inductive AppStep : DB → DB → Prop
  | register (db : DB) (un pw : String) (salt : Nat) :
      AppStep db (register_user db un pw salt).1
  | chat (db : DB) (service : String → Except String String)
      (s : SessionState) (uid : Nat) (prompt : String) :
      AppStep db (handle_prompt service db s uid prompt).1

/-- Database states reachable from a fresh `init_db` through the
application. -/
def ReachableDB (db : DB) : Prop :=
  Relation.ReflTransGen AppStep initDB db

/-! ## Shared helper lemmas -/

/-- The hashing contract: verification succeeds exactly when the stored hash
was produced from the given password, for some salt. -/
theorem verify_password_iff (pw : String) (h : BcryptHash) :
    verify_password pw h = true ↔ ∃ s, h = hash_password pw s := by
  constructor
  · intro hv
    refine ⟨h.salt, ?_⟩
    cases h with
    | mk s p =>
        simp only [verify_password, beq_iff_eq] at hv
        simp [hash_password, hv]
  · rintro ⟨s, rfl⟩
    simp [verify_password, hash_password]

/-- The chat rows written by one handled prompt: the user row then the
assistant row, appended after the existing table. -/
theorem handle_prompt_chat (service : String → Except String String) (db : DB)
    (s : SessionState) (uid : Nat) (prompt : String) :
    (handle_prompt service db s uid prompt).1.chat
      = db.chat ++ [ChatRow.mk db.next_chat_id uid "user" prompt,
          ChatRow.mk (db.next_chat_id + 1) uid "assistant"
            (answer service s.document_content prompt).1] := by
  simp [handle_prompt, save_message]

/-- A registration attempt never touches the `chat_history` table. -/
theorem register_user_chat (db : DB) (un pw : String) (salt : Nat) :
    (register_user db un pw salt).1.chat = db.chat := by
  simp only [register_user]
  split <;> rfl

/-- Reading the history of a user commutes with appending a message of that
same user: the new record arrives at the end. -/
theorem get_chat_history_save_same (db : DB) (uid : Nat) (role content : String) :
    get_chat_history (save_message db uid role content) uid
      = get_chat_history db uid ++ [Message.mk role content] := by
  simp [get_chat_history, save_message, List.filter_append]

/-- Folding a batch of appends for one user extends that history of the
user by exactly those records, in order. -/
theorem get_chat_history_foldl (uid : Nat) (msgs : List (String × String)) :
    ∀ db : DB,
      get_chat_history (msgs.foldl (fun d m => save_message d uid m.1 m.2) db) uid
        = get_chat_history db uid ++ msgs.map (fun m => Message.mk m.1 m.2) := by
  induction msgs with
  | nil => intro db; simp
  | cons m rest ih =>
      intro db
      simp only [List.foldl_cons, List.map_cons]
      rw [ih, get_chat_history_save_same]
      simp

/-! ## Claim theorems -/

/-- A concrete authenticated session of user alice, with a nonempty
transcript mirror and a loaded document, used to evaluate the Logout
handler. -/
def aliceSession : SessionState :=
  ⟨true, some 1, some "alice", some "doc text",
    [Message.mk "user" "hi", Message.mk "assistant" "hello"]⟩

/-- Claim C1: the claim says that on explicit logout every field of the session
state is cleared, including the session-held chat transcript.  The Logout
handler resets `logged_in`, `user_id`, `username` and `document_content`,
but leaves `messages` holding the previous authenticated transcript; and
because the rehydration guard only reloads an empty transcript, a user who
logs in next in the same session (here bob, id 2, with no stored history)
still sees the previous transcript. -/
theorem logout_keeps_transcript :
    (logout aliceSession).logged_in = false
    ∧ (logout aliceSession).user_id = none
    ∧ (logout aliceSession).username = none
    ∧ (logout aliceSession).document_content = none
    ∧ (logout aliceSession).messages = aliceSession.messages
    ∧ (logout aliceSession).messages
        = [Message.mk "user" "hi", Message.mk "assistant" "hello"]
    ∧ (rehydrate_messages initDB (do_login (logout aliceSession) 2 "bob") 2).messages
        = [Message.mk "user" "hi", Message.mk "assistant" "hello"] := by
  refine ⟨rfl, rfl, rfl, rfl, rfl, rfl, ?_⟩
  decide

/-- Claim C7: on a well-formed PDF, extraction returns exactly the concatenation
of the text of each page in page order, a page without an extractable text
layer contributing the empty string; empty pages are included in the
concatenation, not skipped. -/
theorem extract_text_is_ordered_concat (pages : List (Option String)) :
    extract_text_from_pdf pages = String.join (pages.map (fun p => p.getD "")) := by
  simp [extract_text_from_pdf, String.join, List.foldl_map]

/-- Claim C6: when the session document text is absent or empty, the answer step
returns the fixed no-document sentinel and the external model service is
not called. -/
theorem answer_no_document (service : String → Except String String)
    (question : String) (doc : Option String)
    (h : doc = none ∨ doc = some "") :
    answer service doc question = (no_document_sentinel, false) := by
  rcases h with h | h <;> subst h <;> simp [answer]

/-- Witness for C6 at `doc = none`. -/
theorem answer_no_document_witness :
    answer (fun _ => Except.ok "reply") none "question" = (no_document_sentinel, false) :=
  answer_no_document (fun _ => Except.ok "reply") "question" none (Or.inl rfl)

/-- Claim C9: every handled question, whatever branch produced the reply (model
answer, caught error text, or no-document sentinel), appends exactly two
rows for the session user: the `user` row with the question, then the
`assistant` row with the reply. -/
theorem handled_question_appends_two_rows (service : String → Except String String)
    (db : DB) (s : SessionState) (uid : Nat) (prompt : String) :
    (handle_prompt service db s uid prompt).1.chat
      = db.chat ++ [ChatRow.mk db.next_chat_id uid "user" prompt,
          ChatRow.mk (db.next_chat_id + 1) uid "assistant"
            (answer service s.document_content prompt).1] :=
  handle_prompt_chat service db s uid prompt

/-- Claim C10: registration validates nothing but username uniqueness: whenever
the username is not already taken — the empty username and the empty
password included — the call succeeds and stores a salted hash of the given
password. -/
theorem register_no_validation (db : DB) (un pw : String) (salt : Nat)
    (h : ∀ u ∈ db.users, u.username ≠ un) :
    (register_user db un pw salt).2 = true
    ∧ (register_user db un pw salt).1.users
        = db.users ++ [UserRow.mk db.next_user_id un (hash_password pw salt)] := by
  have hany : db.users.any (fun u => u.username == un) = false := by
    simp only [List.any_eq_false, beq_iff_eq]
    exact h
  constructor <;> simp [register_user, hany]

/-- Witness for C10: registering the empty username with the empty password
on a fresh store succeeds. -/
theorem register_no_validation_witness :
    (register_user initDB "" "" 0).2 = true
    ∧ (register_user initDB "" "" 0).1.users
        = initDB.users ++ [UserRow.mk initDB.next_user_id "" (hash_password "" 0)] :=
  register_no_validation initDB "" "" 0 (by decide)

/-- Claim C2: for a user with no prior messages, history is empty; after any batch
of appends for that user, history returns exactly those entries, each a
`{role, content}` record, in the order the appends were made.  `get_chat_history`
is embedded as a pure read of the store, reflecting that the source function
only SELECTs. -/
theorem history_counts_appends (db : DB) (uid : Nat) (msgs : List (String × String))
    (h : ∀ r ∈ db.chat, r.user_id ≠ uid) :
    get_chat_history db uid = []
    ∧ get_chat_history (msgs.foldl (fun d m => save_message d uid m.1 m.2) db) uid
        = msgs.map (fun m => Message.mk m.1 m.2) := by
  have hempty : get_chat_history db uid = [] := by
    unfold get_chat_history
    rw [List.filter_eq_nil_iff.mpr]
    · rfl
    · intro r hr
      simpa using h r hr
  exact ⟨hempty, by rw [get_chat_history_foldl, hempty, List.nil_append]⟩

/-- Witness for C2: two appends on a fresh store yield exactly those two
records in order. -/
theorem history_counts_appends_witness :
    get_chat_history initDB 1 = []
    ∧ get_chat_history ([("user", "hi"), ("assistant", "yo")].foldl
        (fun d m => save_message d 1 m.1 m.2) initDB) 1
        = [("user", "hi"), ("assistant", "yo")].map (fun m => Message.mk m.1 m.2) :=
  history_counts_appends initDB 1 [("user", "hi"), ("assistant", "yo")] (by decide)

/-- Claim C3: registration returns `false` exactly when the username already has a
row; on that duplicate failure the whole store — the first row included — is
unchanged; on success the new row with the salted hash is appended. -/
theorem register_duplicate_semantics (db : DB) (un pw : String) (salt : Nat) :
    ((register_user db un pw salt).2 = false ↔ ∃ u ∈ db.users, u.username = un)
    ∧ ((∃ u ∈ db.users, u.username = un) → (register_user db un pw salt).1 = db)
    ∧ ((¬ ∃ u ∈ db.users, u.username = un) →
        (register_user db un pw salt).1.users
          = db.users ++ [UserRow.mk db.next_user_id un (hash_password pw salt)]) := by
  have hiff : db.users.any (fun u => u.username == un) = true
      ↔ ∃ u ∈ db.users, u.username = un := by
    simp [List.any_eq_true]
  cases hany : db.users.any (fun u => u.username == un) with
  | true =>
      have hex : ∃ u ∈ db.users, u.username = un := hiff.mp hany
      have hreg : register_user db un pw salt = (db, false) := by
        simp [register_user, hany]
      refine ⟨?_, fun _ => ?_, fun hn => absurd hex hn⟩
      · rw [hreg]
        exact iff_of_true rfl hex
      · rw [hreg]
  | false =>
      have hnex : ¬ ∃ u ∈ db.users, u.username = un := by
        intro hx
        have hcontra := hiff.mpr hx
        rw [hany] at hcontra
        exact Bool.false_ne_true hcontra
      have hreg : register_user db un pw salt
          = ({ db with
                users := db.users ++ [UserRow.mk db.next_user_id un (hash_password pw salt)],
                next_user_id := db.next_user_id + 1 }, true) := by
        simp [register_user, hany]
      refine ⟨?_, fun hx => absurd hx hnex, fun _ => ?_⟩
      · rw [hreg]
        exact iff_of_false (by simp) hnex
      · rw [hreg]

/-- The store after registering alice on a fresh database. -/
def dbAlice : DB := (register_user initDB "alice" "pw123" 3).1

/-- Witness for C3: a second registration of alice fails and leaves the
store unchanged. -/
theorem register_duplicate_semantics_witness :
    (register_user dbAlice "alice" "other" 4).2 = false
    ∧ (register_user dbAlice "alice" "other" 4).1 = dbAlice := by
  have h := register_duplicate_semantics dbAlice "alice" "other" 4
  have hex : ∃ u ∈ dbAlice.users, u.username = "alice" := by decide
  exact ⟨h.1.mpr hex, h.2.1 hex⟩

/-- Claim C4: with the UNIQUE constraint on usernames in force, login returns the
stored id of a user exactly when a row with that username exists and its
hash was produced from the given password; when no row with the username
exists the result is `none`, the very value returned on a wrong password. -/
theorem login_user_semantics (db : DB) (un pw : String)
    (huniq : (db.users.map (fun u => u.username)).Nodup) :
    (∀ i : Nat, login_user db un pw = some i ↔
        ∃ u ∈ db.users, u.username = un ∧ u.id = i
          ∧ ∃ s, u.password_hash = hash_password pw s)
    ∧ ((¬ ∃ u ∈ db.users, u.username = un) → login_user db un pw = none) := by
  constructor
  · intro i
    cases hfind : db.users.find? (fun u => u.username == un) with
    | none =>
        have hnone : ∀ u ∈ db.users, u.username ≠ un := by
          intro u hu
          simpa using List.find?_eq_none.mp hfind u hu
        have hlog : login_user db un pw = none := by
          unfold login_user
          rw [hfind]
        rw [hlog]
        constructor
        · intro hx
          exact Option.noConfusion hx
        · rintro ⟨u, hu, hun, -⟩
          exact absurd hun (hnone u hu)
    | some u =>
        have hmem : u ∈ db.users := List.mem_of_find?_eq_some hfind
        have hun : u.username = un := by
          simpa using List.find?_some hfind
        have hlog : login_user db un pw
            = if verify_password pw u.password_hash then some u.id else none := by
          unfold login_user
          rw [hfind]
        by_cases hv : verify_password pw u.password_hash = true
        · have hlog2 : login_user db un pw = some u.id := by
            rw [hlog, if_pos hv]
          rw [hlog2]
          constructor
          · intro hx
            injection hx with hx
            exact ⟨u, hmem, hun, hx, (verify_password_iff pw u.password_hash).mp hv⟩
          · rintro ⟨u2, hmem2, hun2, hid2, hhash2⟩
            have heq : u2 = u :=
              List.inj_on_of_nodup_map huniq hmem2 hmem (by rw [hun2, hun])
            subst heq
            rw [hid2]
        · have hlog2 : login_user db un pw = none := by
            rw [hlog, if_neg hv]
          rw [hlog2]
          constructor
          · intro hx
            exact Option.noConfusion hx
          · rintro ⟨u2, hmem2, hun2, hid2, hhash2⟩
            have heq : u2 = u :=
              List.inj_on_of_nodup_map huniq hmem2 hmem (by rw [hun2, hun])
            subst heq
            exact absurd ((verify_password_iff pw u2.password_hash).mpr hhash2) hv
  · intro hnex
    cases hfind : db.users.find? (fun u => u.username == un) with
    | none =>
        unfold login_user
        rw [hfind]
    | some u =>
        exact absurd
          ⟨u, List.mem_of_find?_eq_some hfind, by simpa using List.find?_some hfind⟩
          hnex

/-- Witness for C4: alice logs in with the registered password and gets her
stored id back. -/
theorem login_user_semantics_witness :
    login_user dbAlice "alice" "pw123" = some 1 := by
  have h := login_user_semantics dbAlice "alice" "pw123" (by decide)
  exact (h.1 1).mpr
    ⟨UserRow.mk 1 "alice" (hash_password "pw123" 3), by decide, rfl, rfl, ⟨3, rfl⟩⟩

/-- Claim C5: whenever the external model service fails — however it fails — the
answer step does not propagate the failure: it returns the descriptive
error string as its result, and the handled prompt persists that very
string to the conversation store through the same `save_message` call an
ordinary assistant answer goes through. -/
theorem service_error_caught_and_persisted
    (service : String → Except String String) (db : DB) (s : SessionState)
    (uid : Nat) (prompt doc e : String)
    (hdoc : s.document_content = some doc) (hne : doc ≠ "")
    (hserv : service (build_full_prompt doc prompt) = Except.error e) :
    (answer service s.document_content prompt).1 = "An error occurred: " ++ e
    ∧ (handle_prompt service db s uid prompt).1
        = save_message (save_message db uid "user" prompt) uid "assistant"
            ("An error occurred: " ++ e) := by
  have hans : answer service s.document_content prompt
      = ("An error occurred: " ++ e, true) := by
    rw [hdoc]
    unfold answer
    dsimp only
    rw [if_neg (by simpa using hne), hserv]
  constructor
  · rw [hans]
  · simp only [handle_prompt]
    rw [hans]

/-- An authenticated session of alice holding a loaded document. -/
def errSession : SessionState := ⟨true, some 1, some "alice", some "Doc", []⟩

/-- Witness for C5: a quota failure of the service comes back as the error
text and is stored as the assistant turn. -/
theorem service_error_caught_and_persisted_witness :
    (answer (fun _ => Except.error "quota") errSession.document_content "q").1
        = "An error occurred: " ++ "quota"
    ∧ (handle_prompt (fun _ => Except.error "quota") initDB errSession 1 "q").1
        = save_message (save_message initDB 1 "user" "q") 1 "assistant"
            ("An error occurred: " ++ "quota") :=
  service_error_caught_and_persisted (fun _ => Except.error "quota")
    initDB errSession 1 "q" "Doc" "quota" rfl (by decide) rfl

/-- Claim C8: each `save_message` call appends exactly one complete row, and in
every database state the application can reach from a fresh store, every
stored row carries role `user` or role `assistant`. -/
theorem append_atomic_and_role_enum :
    (∀ (db : DB) (uid : Nat) (role content : String),
        (save_message db uid role content).chat
          = db.chat ++ [ChatRow.mk db.next_chat_id uid role content])
    ∧ ∀ db : DB, ReachableDB db →
        ∀ r ∈ db.chat, r.role = "user" ∨ r.role = "assistant" := by
  constructor
  · intro db uid role content
    rfl
  · intro db hreach
    induction hreach with
    | refl =>
        intro r hr
        simp [initDB] at hr
    | tail hab hstep ih =>
        intro r hr
        cases hstep with
        | register un pw salt =>
            rw [register_user_chat] at hr
            exact ih r hr
        | chat service s uid prompt =>
            rw [handle_prompt_chat] at hr
            rcases List.mem_append.mp hr with hin | hnew
            · exact ih r hin
            · simp only [List.mem_cons, List.not_mem_nil, or_false] at hnew
              rcases hnew with rfl | rfl
              · left
                rfl
              · right
                rfl

/-- Witness for C8: one appended row on a fresh store, and the role
invariant evaluated on the store reached by one handled prompt. -/
theorem append_atomic_and_role_enum_witness :
    (save_message initDB 1 "user" "hi").chat
      = initDB.chat ++ [ChatRow.mk initDB.next_chat_id 1 "user" "hi"]
    ∧ ∀ r ∈ (handle_prompt (fun _ => Except.ok "fine") initDB errSession 1 "q").1.chat,
        r.role = "user" ∨ r.role = "assistant" :=
  ⟨append_atomic_and_role_enum.1 initDB 1 "user" "hi",
   append_atomic_and_role_enum.2 _
     (Relation.ReflTransGen.single
       (AppStep.chat initDB (fun _ => Except.ok "fine") errSession 1 "q"))⟩
